import Mathlib

/-!
Verification of core behaviours of the uber-go/uberfx repository:
the lifecycle coordinator (src/internal/lifecycle/lifecycle.go),
the shutdown-signal broadcaster (src/shutdown.go and the
App.broadcastSignal revision), and the dig dependency-graph resolver
(src/unnamed/part_007).

Each Go function is shallowly embedded as an executable Lean function.
Side effects that the claims talk about (which callbacks ran, in which
order; which constructors were invoked) are made observable by having
each embedded operation additionally return a trace: the list of labels
of the callbacks (resp. identities of the constructors) it invoked, in
invocation order.  Logging is not modelled.  Go contexts are modelled by
a Boolean that is true when ctx.Done() is closed; the claims only need a
cancellation state that is constant for the duration of one call.
-/

/-! ## Lifecycle coordinator (src/internal/lifecycle/lifecycle.go) -/

/-- A callback passed as OnStart or OnStop.  `label` identifies the
function for the invocation trace, `ret` is the error value the callback
returns (`none` = nil), `runtime` is the elapsed time Go would measure
with time.Since. -/
structure HookFn where
  label : String
  ret : Option String
  runtime : Nat
deriving Repr, DecidableEq

/-- The single stack frame kept by fxreflect.Frame; only the Function
field is used by the lifecycle code. -/
structure Frame where
  function : String
deriving Repr, DecidableEq

/-- A Hook is a pair of start and stop callbacks, either of which can be
nil, plus the registration-time caller frame. -/
structure Hook where
  onStart : Option HookFn
  onStop : Option HookFn
  callerFrame : Frame
deriving Repr, DecidableEq

/-- The zero value of the Go Hook struct: both callbacks nil and an
empty caller frame.  This is the initial value of Lifecycle.runningHook. -/
def Hook.empty : Hook := ⟨none, none, ⟨""⟩⟩

/-- HookRecord keeps the caller frame, the label of the function that
ran, and its runtime. -/
structure HookRecord where
  callerFrame : Frame
  func : String
  runtime : Nat
deriving Repr, DecidableEq

/-- Errors a lifecycle call can surface.  `canceled` is ctx.Err();
`hookErr` is an error returned by a callback; `combined` is the
multierr.Combine of two or more errors; `panicOutOfRange` models the Go
runtime panic raised by the slice access l.hooks[idx] when idx is out of
bounds. -/
inductive GoErr where
  | canceled
  | hookErr (msg : String)
  | combined (errs : List GoErr)
  | panicOutOfRange (idx len : Nat)
deriving Repr

/-- multierr.Combine over the collected (non-nil) errors: nil for an
empty list, the error itself for a singleton, a combined error
otherwise. -/
def combine : List GoErr → Option GoErr
  | [] => none
  | [e] => some e
  | es => some (GoErr.combined es)

/-- Lifecycle coordinates application lifecycle hooks.  The logger and
the mutex are not modelled. -/
structure Lifecycle where
  hooks : List Hook
  numStarted : Nat
  startRecords : List HookRecord
  stopRecords : List HookRecord
  runningHook : Hook
deriving Repr, DecidableEq

/-- New constructs a new Lifecycle (zero-valued apart from the logger). -/
def Lifecycle.New : Lifecycle := ⟨[], 0, [], [], Hook.empty⟩

/-- Append adds a Hook to the lifecycle.  The caller frame is captured
at registration time; in the model it is already part of the hook. -/
def Lifecycle.Append (l : Lifecycle) (h : Hook) : Lifecycle :=
  { l with hooks := l.hooks ++ [h] }

/-- The loop body of Lifecycle.Start: iterate the given hooks in order,
checking ctx.Done() before each one; for a non-nil OnStart set the
running hook, invoke the callback (appending its label to the trace),
return its error immediately if non-nil, otherwise append a start
record; whether or not a callback ran, increment numStarted — except
that an error return exits before the increment. -/
def startLoop (ctx : Bool) : List Hook → Lifecycle → List String →
    Option GoErr × Lifecycle × List String
  | [], l, tr => (none, l, tr)
  | h :: rest, l, tr =>
    if ctx then (some GoErr.canceled, l, tr)
    else
      match h.onStart with
      | none => startLoop ctx rest { l with numStarted := l.numStarted + 1 } tr
      | some f =>
        let l1 := { l with runningHook := h }
        let tr1 := tr ++ [f.label]
        match f.ret with
        | some e => (some (GoErr.hookErr e), l1, tr1)
        | none =>
          startLoop ctx rest
            { l1 with
              startRecords := l1.startRecords ++ [⟨h.callerFrame, f.label, f.runtime⟩],
              numStarted := l1.numStarted + 1 }
            tr1

/-- Start runs all OnStart hooks, returning immediately if it encounters
an error.  It resets startRecords but not numStarted, and always
iterates the full hook list from the beginning. -/
def Lifecycle.Start (l : Lifecycle) (ctx : Bool) :
    Option GoErr × Lifecycle × List String :=
  startLoop ctx l.hooks { l with startRecords := [] } []

/-- The loop of Lifecycle.Stop: run backward from the hook at index
numStarted-1, decrementing numStarted after each iteration.  ctx
cancellation aborts immediately (numStarted keeps its current value);
the slice access l.hooks[numStarted-1] panics when out of bounds; a nil
OnStop is skipped but still decrements; a stop-callback error is
collected and iteration continues; a record is appended whether or not
the callback errored. -/
def stopLoop (ctx : Bool) (l : Lifecycle) (errs : List GoErr) (tr : List String) :
    Option GoErr × Lifecycle × List String :=
  if h0 : l.numStarted = 0 then (combine errs, l, tr)
  else if ctx then (some GoErr.canceled, l, tr)
  else
    match l.hooks.get? (l.numStarted - 1) with
    | none => (some (GoErr.panicOutOfRange (l.numStarted - 1) l.hooks.length), l, tr)
    | some h =>
      match h.onStop with
      | none => stopLoop ctx { l with numStarted := l.numStarted - 1 } errs tr
      | some f =>
        stopLoop ctx
          { l with
            numStarted := l.numStarted - 1,
            runningHook := h,
            stopRecords := l.stopRecords ++ [⟨h.callerFrame, f.label, f.runtime⟩] }
          (errs ++ (match f.ret with | some e => [GoErr.hookErr e] | none => []))
          (tr ++ [f.label])
termination_by l.numStarted
decreasing_by all_goals (simp; omega)

/-- Stop runs any OnStop hooks whose OnStart counterpart succeeded, in
reverse order, resetting stopRecords first and combining collected
errors at the end. -/
def Lifecycle.Stop (l : Lifecycle) (ctx : Bool) :
    Option GoErr × Lifecycle × List String :=
  stopLoop ctx { l with stopRecords := [] } [] []

/-- RunningHookCaller returns the Function of the running hook's caller
frame. -/
def Lifecycle.RunningHookCaller (l : Lifecycle) : String :=
  l.runningHook.callerFrame.function

/-- A hook whose OnStart (if any) returns nil. -/
def startOk (h : Hook) : Bool :=
  match h.onStart with
  | none => true
  | some f => f.ret.isNone

/-- Labels of the start callbacks that a fully successful pass over
these hooks invokes, in order. -/
def startLabels (hs : List Hook) : List String :=
  hs.filterMap (fun h => h.onStart.map (fun f => f.label))

/-- Start records appended by a fully successful pass over these hooks. -/
def startRecs (hs : List Hook) : List HookRecord :=
  hs.filterMap (fun h =>
    h.onStart.map (fun f => (⟨h.callerFrame, f.label, f.runtime⟩ : HookRecord)))

/-- The running hook after processing these hooks in order during Start:
the last one with a non-nil OnStart, or the previous value if none. -/
def lastRunning : List Hook → Hook → Hook
  | [], d => d
  | h :: hs, d =>
    if h.onStart.isSome then lastRunning hs h else lastRunning hs d

/-- Labels of the stop callbacks invoked when these hooks are processed
in this order during Stop (nil OnStop skipped). -/
def stopLabels (hs : List Hook) : List String :=
  hs.filterMap (fun h => h.onStop.map (fun f => f.label))

/-- Stop records appended when these hooks are processed in this order. -/
def stopRecs (hs : List Hook) : List HookRecord :=
  hs.filterMap (fun h =>
    h.onStop.map (fun f => (⟨h.callerFrame, f.label, f.runtime⟩ : HookRecord)))

/-- Errors collected when these hooks are processed in this order during
Stop: one entry per non-nil OnStop that returns a non-nil error. -/
def stopErrs (hs : List Hook) : List GoErr :=
  hs.filterMap (fun h =>
    match h.onStop with
    | some f => f.ret.map GoErr.hookErr
    | none => none)

/-- The running hook after processing these hooks in order during Stop. -/
def lastRunningStop : List Hook → Hook → Hook
  | [], d => d
  | h :: hs, d =>
    if h.onStop.isSome then lastRunningStop hs h else lastRunningStop hs d

/-! ## Shutdown broadcaster (src/shutdown.go, src/unnamed/part_001) -/

/-- An os.Signal value. -/
abbrev Signal := String

/-- Errors broadcast can return: `noSubscribers` is the "attempted to
shutdown without any Done channels" error of App.broadcastSignal;
`failedToSend` is the "failed to send %v signal to %v out of %v
channels" error. -/
inductive BErr where
  | noSubscribers
  | failedToSend (signal : Signal) (unsent total : Nat)
deriving Repr, DecidableEq

/-- A single-slot Done channel: `none` when empty, `some s` when it
holds an undelivered signal `s`. -/
abbrev Chan := Option Signal

/-- The send loop shared by both broadcaster revisions: for each channel
attempt a non-blocking send (select with default); a full slot counts as
unsent and is left unchanged, an empty slot receives the signal. -/
def sendLoop : List Chan → Signal → Nat → List Chan → Nat × List Chan
  | [], _, unsent, acc => (unsent, acc)
  | none :: rest, s, unsent, acc => sendLoop rest s unsent (acc ++ [some s])
  | some x :: rest, s, unsent, acc => sendLoop rest s (unsent + 1) (acc ++ [some x])

/-- App.broadcastSignal (src/unnamed/part_001): fail when there are no
Done channels, otherwise run the send loop and report the number of
unsent deliveries if any. -/
def App.broadcastSignal (dones : List Chan) (signal : Signal) :
    Option BErr × List Chan :=
  if dones.length < 1 then (some BErr.noSubscribers, dones)
  else
    let r := sendLoop dones signal 0 []
    if r.1 ≠ 0 then (some (BErr.failedToSend signal r.1 dones.length), r.2)
    else (none, r.2)

/-- The closure returned by App.signalBroadcaster (src/shutdown.go):
identical send loop but with no empty-subscriber-set check. -/
def App.signalBroadcaster (dones : List Chan) (signal : Signal) :
    Option BErr × List Chan :=
  let r := sendLoop dones signal 0 []
  if r.1 ≠ 0 then (some (BErr.failedToSend signal r.1 dones.length), r.2)
  else (none, r.2)

/-! ## Dig graph resolver (src/unnamed/part_007) -/

namespace Dig

/-- A type identity (an interned reflect.Type). -/
abbrev Id := Nat

/-- A reflect.Value produced by a node. -/
abbrev V := Int

/-- A registered constructor: its printed reflect.Type (used in error
messages), its parameter types ct.In(0..NumIn-1), and the function
itself.  `fn` returns the full result list of reflect's Call collapsed
to (first result, optional further error result); funcNode.value reads
only the first component. -/
structure Ctor where
  name : String
  params : List Id
  fn : List V → V × Option String

/-- Errors resolution can produce.  `notRegistered ctorName dep` is the
"%v dependency of type %v is not registered" error (ctorName is the
constructor being resolved, dep the missing identity); `wrapped` is
errors.Wrap; `invalidArgPanic` models the reflect.Call panic on a zero
reflect.Value argument; `missingNode` — modelled from the spec:
resolving an identity with no registered node fails (the graph's resolve
entry point is not under src/); `fuelExhausted` models the
nontermination of the Go recursion on cyclic graphs. -/
inductive DigErr where
  | notRegistered (ctorName : String) (dep : Id)
  | wrapped (msg : String) (inner : DigErr)
  | invalidArgPanic
  | missingNode (i : Id)
  | fuelExhausted
deriving Repr, DecidableEq

/-- A graph node: an objNode holding an already-constructed value, or a
funcNode holding a constructor, its declared dependency identities, a
cached flag and a cached value. -/
inductive Node where
  | obj (v : V)
  | func (ctor : Ctor) (deps : List Id) (cached : Bool) (cachedValue : V)

/-- g.nodes: the map from identity to node, as an association list
(first binding wins; identities are registered at most once). -/
abbrev Graph := List (Id × Node)

/-- Map lookup g.nodes[i]. -/
def lookup : Graph → Id → Option Node
  | [], _ => none
  | (j, n) :: rest, i => if j = i then some n else lookup rest i

/-- dependencies(): nil for an objNode, n.deps for a funcNode. -/
def nodeDeps : Node → List Id
  | Node.obj _ => []
  | Node.func _ deps _ _ => deps

/-- The pre-check loop body: scan the given nodes and return the first
declared dependency identity that has no node registered in g.  (Go
iterates the map in unspecified order; the model fixes list order.  The
claims only depend on whether some missing dependency exists.) -/
def findMissingDep (g : Graph) : List (Id × Node) → Option Id
  | [] => none
  | (_, n) :: rest =>
    match (nodeDeps n).find? (fun d => (lookup g d).isNone) with
    | some d => some d
    | none => findMissingDep g rest

/-- The pre-check of funcNode.value: check that every node currently in
the graph has all of its declared dependencies registered. -/
def precheck (g : Graph) : Option Id := findMissingDep g g

/-- Collapse the argument list; `none` marks a slot that kept its zero
reflect.Value because no node was registered for that parameter type. -/
def allSome : List (Option V) → Option (List V)
  | [] => some []
  | none :: _ => none
  | some v :: rest => (allSome rest).map (fun vs => v :: vs)

/-- Set cached = true and cachedValue = v on the funcNode registered at
i (the map stores node pointers, so the mutation in funcNode.value is
visible through the graph). -/
def updateCache : Graph → Id → V → Graph
  | [], _, _ => []
  | (j, n) :: rest, i, v =>
    if j = i then
      (j, match n with
          | Node.func c d _ _ => Node.func c d true v
          | other => other) :: rest
    else (j, n) :: updateCache rest i v

/-- The argument loop of funcNode.value: for each parameter type, if a
node is registered for it, resolve it recursively (threading the graph,
since resolution caches), wrapping a failure as
"dependency resolution failed"; if no node is registered the argument
slot keeps its zero reflect.Value (`none`). -/
def argsLoop (resolve : Id → Graph → Except DigErr V × Graph × List Id) :
    List Id → Graph → Except DigErr (List (Option V)) × Graph × List Id
  | [], g => (Except.ok [], g, [])
  | p :: ps, g =>
    match lookup g p with
    | none =>
      match argsLoop resolve ps g with
      | (Except.ok vs, g1, tr) => (Except.ok (none :: vs), g1, tr)
      | (Except.error e, g1, tr) => (Except.error e, g1, tr)
    | some _ =>
      match resolve p g with
      | (Except.error e, g1, tr) =>
        (Except.error (DigErr.wrapped "dependency resolution failed" e), g1, tr)
      | (Except.ok v, g1, tr) =>
        match argsLoop resolve ps g1 with
        | (Except.ok vs, g2, tr2) => (Except.ok (some v :: vs), g2, tr ++ tr2)
        | (Except.error e, g2, tr2) => (Except.error e, g2, tr ++ tr2)

/-- value(g): resolve the node registered at i.  An objNode returns its
value; a cached funcNode returns its cached value; an uncached funcNode
runs the whole-graph dependency pre-check, resolves its constructor's
parameters, invokes the constructor keeping only the first result —
Call(args)[0] — caches it and returns it, appending i to the invocation
trace.  Fuel bounds the recursion depth; the Go original recurses
without bound (and diverges on cyclic graphs). -/
def value : Nat → Id → Graph → Except DigErr V × Graph × List Id
  | 0 => fun _ g => (Except.error DigErr.fuelExhausted, g, [])
  | fuel + 1 => fun i g =>
    match lookup g i with
    | none => (Except.error (DigErr.missingNode i), g, [])
    | some (Node.obj v) => (Except.ok v, g, [])
    | some (Node.func _ _ true cv) => (Except.ok cv, g, [])
    | some (Node.func c _ false _) =>
      match precheck g with
      | some d => (Except.error (DigErr.notRegistered c.name d), g, [])
      | none =>
        match argsLoop (value fuel) c.params g with
        | (Except.error e, g1, tr) => (Except.error e, g1, tr)
        | (Except.ok args, g1, tr) =>
          match allSome args with
          | none => (Except.error DigErr.invalidArgPanic, g1, tr)
          | some vs =>
            (Except.ok (c.fn vs).1, updateCache g1 i (c.fn vs).1, tr ++ [i])

/-- Graph evolution during resolution: a resolution step leaves every
binding unchanged except that uncached funcNodes may become cached. -/
def evolves (g g' : Graph) : Prop :=
  ∀ j, lookup g' j = lookup g j ∨
    ∃ c d x v, lookup g j = some (Node.func c d false x) ∧
               lookup g' j = some (Node.func c d true v)

/-- A constructor used by the diamond fixture. -/
def sumCtor (nm : String) (ps : List Id) (base : V) : Ctor :=
  ⟨nm, ps, fun vs => (vs.foldl (· + ·) base, none)⟩

/-- Diamond-shaped registry: A(0) depends on B(1) and C(2), both of
which depend on D(3). -/
def gDiamond : Graph :=
  [ (0, Node.func (sumCtor "ctorA" [1, 2] 0) [1, 2] false 0),
    (1, Node.func (sumCtor "ctorB" [3] 10) [3] false 0),
    (2, Node.func (sumCtor "ctorC" [3] 20) [3] false 0),
    (3, Node.func (sumCtor "ctorD" [] 7) [] false 0) ]

/-- A self-sufficient constructor X. -/
def ctorX : Ctor := ⟨"ctorX", [], fun _ => (1, none)⟩

/-- A constructor Y declaring a dependency on identity 2. -/
def ctorY : Ctor := ⟨"ctorY", [2], fun _ => (2, none)⟩

/-- Registry where node 0 (ctorX) has no dependencies but the unrelated
node 1 (ctorY) declares a dependency on the unregistered identity 2. -/
def gU : Graph :=
  [ (0, Node.func ctorX [] false 0), (1, Node.func ctorY [2] false 0) ]

/-- A constructor whose error result is non-nil. -/
def ctorBad : Ctor := ⟨"ctorBad", [], fun _ => (7, some "boom")⟩

/-- Registry holding only the failing constructor. -/
def gBad : Graph := [ (0, Node.func ctorBad [] false 0) ]

/-- A registry whose single funcNode is already cached. -/
def gC : Graph := [ (5, Node.func (sumCtor "ctorE" [] 0) [] true 99) ]

end Dig

/-! ## Concrete lifecycle and broadcaster fixtures -/

/-- Hook h1 of the start-abort scenario: start succeeds. -/
def hkA1 : Hook := ⟨some ⟨"h1start", none, 1⟩, some ⟨"h1stop", none, 1⟩, ⟨"caller1"⟩⟩

/-- Hook h2 of the start-abort scenario: start fails. -/
def hkA2 : Hook := ⟨some ⟨"h2start", some "h2 failed", 1⟩, some ⟨"h2stop", none, 1⟩, ⟨"caller2"⟩⟩

/-- Hook h3 of the start-abort scenario: start would succeed but must
never be invoked. -/
def hkA3 : Hook := ⟨some ⟨"h3start", none, 1⟩, some ⟨"h3stop", none, 1⟩, ⟨"caller3"⟩⟩

/-- Lifecycle with hooks [h1 succeeds, h2 fails, h3]. -/
def lA : Lifecycle := ((Lifecycle.New.Append hkA1).Append hkA2).Append hkA3

/-- Hook h1 of the stop-reverse scenario: starts and stops cleanly. -/
def hkB1 : Hook := ⟨some ⟨"h1start", none, 1⟩, some ⟨"h1stop", none, 1⟩, ⟨"caller1"⟩⟩

/-- Hook h2 of the stop-reverse scenario: starts and stops cleanly. -/
def hkB2 : Hook := ⟨some ⟨"h2start", none, 1⟩, some ⟨"h2stop", none, 1⟩, ⟨"caller2"⟩⟩

/-- Hook h3 of the stop-reverse scenario: fails during Start. -/
def hkB3 : Hook := ⟨some ⟨"h3start", some "h3 failed", 1⟩, some ⟨"h3stop", none, 1⟩, ⟨"caller3"⟩⟩

/-- Lifecycle with h1, h2 starting successfully and h3 failing. -/
def lB : Lifecycle := ((Lifecycle.New.Append hkB1).Append hkB2).Append hkB3

/-- The lB lifecycle after its failed Start (numStarted = 2). -/
def lBStarted : Lifecycle := (lB.Start false).2.1

/-- Hook started earlier in the stop-continues scenario; its stop
succeeds. -/
def hkC1 : Hook := ⟨some ⟨"h2start", none, 1⟩, some ⟨"h2stop", none, 1⟩, ⟨"caller2"⟩⟩

/-- Hook started later in the stop-continues scenario; its stop fails. -/
def hkC2 : Hook := ⟨some ⟨"h1start", none, 1⟩, some ⟨"h1stop", some "h1stop failed", 1⟩, ⟨"caller1"⟩⟩

/-- Lifecycle of the stop-continues scenario after a successful Start of
both hooks. -/
def lC : Lifecycle := ((((Lifecycle.New.Append hkC1).Append hkC2)).Start false).2.1

/-- The single hook of the double-Start scenario. -/
def hkD : Hook := ⟨some ⟨"hstart", none, 1⟩, some ⟨"hstop", none, 1⟩, ⟨"callerD"⟩⟩

/-- A one-hook lifecycle. -/
def lD : Lifecycle := Lifecycle.New.Append hkD

/-- Broadcast fixture: the first subscriber still holds an undelivered
signal, the second channel is empty. -/
def donesFix : List Chan := [some "OLD", none]

/-! ## Lifecycle lemmas -/

theorem combine_eq_none_iff : ∀ es : List GoErr, combine es = none ↔ es = []
  | [] => by simp [combine]
  | [e] => by simp [combine]
  | e :: e2 :: es => by simp [combine]

theorem startLoop_ok : ∀ (hs : List Hook) (l : Lifecycle) (tr : List String),
    (∀ h ∈ hs, startOk h = true) →
    startLoop false hs l tr =
      (none,
       { l with numStarted := l.numStarted + hs.length,
                startRecords := l.startRecords ++ startRecs hs,
                runningHook := lastRunning hs l.runningHook },
       tr ++ startLabels hs) := by
  intro hs
  induction hs with
  | nil =>
    intro l tr _
    obtain ⟨hks, ns, sr, st, rh⟩ := l
    simp [startLoop, startRecs, startLabels, lastRunning]
  | cons h rest ih =>
    intro l tr hok
    have hh : startOk h = true := hok h (List.mem_cons_self h rest)
    have hrest : ∀ x ∈ rest, startOk x = true :=
      fun x hx => hok x (List.mem_cons_of_mem h hx)
    cases hos : h.onStart with
    | none =>
      rw [startLoop]
      simp only [hos, if_neg (by simp : ¬(false = true))]
      rw [ih _ _ hrest]
      obtain ⟨hks, ns, sr, st, rh⟩ := l
      simp [startRecs, startLabels, lastRunning, hos, Nat.add_assoc, Nat.add_comm 1]
    | some f =>
      have hret : f.ret = none := by
        have := hh
        rw [startOk, hos] at this
        exact Option.isNone_iff_eq_none.mp this
      rw [startLoop]
      simp only [hos, hret, if_neg (by simp : ¬(false = true))]
      rw [ih _ _ hrest]
      obtain ⟨hks, ns, sr, st, rh⟩ := l
      simp [startRecs, startLabels, lastRunning, hos, hret, Nat.add_assoc,
        Nat.add_comm 1, List.append_assoc]

theorem startLoop_fail : ∀ (pre : List Hook) (hk : Hook) (rest : List Hook)
    (f : HookFn) (e : String) (l : Lifecycle) (tr : List String),
    (∀ x ∈ pre, startOk x = true) →
    hk.onStart = some f → f.ret = some e →
    startLoop false (pre ++ hk :: rest) l tr =
      (some (GoErr.hookErr e),
       { l with numStarted := l.numStarted + pre.length,
                startRecords := l.startRecords ++ startRecs pre,
                runningHook := hk },
       tr ++ startLabels pre ++ [f.label]) := by
  intro pre
  induction pre with
  | nil =>
    intro hk rest f e l tr _ hos hret
    rw [List.nil_append, startLoop]
    simp only [hos, hret, if_neg (by simp : ¬(false = true))]
    obtain ⟨hks, ns, sr, st, rh⟩ := l
    simp [startRecs, startLabels]
  | cons h pre ih =>
    intro hk rest f e l tr hok hos hret
    have hh : startOk h = true := hok h (List.mem_cons_self h pre)
    have hpre : ∀ x ∈ pre, startOk x = true :=
      fun x hx => hok x (List.mem_cons_of_mem h hx)
    rw [List.cons_append, startLoop]
    cases hos2 : h.onStart with
    | none =>
      simp only [hos2, if_neg (by simp : ¬(false = true))]
      rw [ih hk rest f e _ _ hpre hos hret]
      obtain ⟨hks, ns, sr, st, rh⟩ := l
      simp [startRecs, startLabels, hos2, Nat.add_assoc, Nat.add_comm 1]
    | some f2 =>
      have hret2 : f2.ret = none := by
        have := hh
        rw [startOk, hos2] at this
        exact Option.isNone_iff_eq_none.mp this
      simp only [hos2, hret2, if_neg (by simp : ¬(false = true))]
      rw [ih hk rest f e _ _ hpre hos hret]
      obtain ⟨hks, ns, sr, st, rh⟩ := l
      simp [startRecs, startLabels, hos2, hret2, Nat.add_assoc,
        Nat.add_comm 1, List.append_assoc]

theorem startLoop_hooks : ∀ (ctx : Bool) (hs : List Hook) (l : Lifecycle)
    (tr : List String), (startLoop ctx hs l tr).2.1.hooks = l.hooks := by
  intro ctx hs
  induction hs with
  | nil => intro l tr; simp [startLoop]
  | cons h rest ih =>
    intro l tr
    obtain ⟨hks, ns, sr, st, rh⟩ := l
    rw [startLoop]
    cases ctx with
    | true => simp
    | false =>
      simp only [if_neg (by simp : ¬(false = true))]
      cases hos : h.onStart with
      | none => simp only [hos]; rw [ih]
      | some f =>
        cases hret : f.ret with
        | some e => simp [hos, hret]
        | none => simp only [hos, hret]; rw [ih]

theorem startLoop_mono : ∀ (ctx : Bool) (hs : List Hook) (l : Lifecycle)
    (tr : List String), l.numStarted ≤ (startLoop ctx hs l tr).2.1.numStarted := by
  intro ctx hs
  induction hs with
  | nil => intro l tr; simp [startLoop]
  | cons h rest ih =>
    intro l tr
    obtain ⟨hks, ns, sr, st, rh⟩ := l
    rw [startLoop]
    cases ctx with
    | true => simp
    | false =>
      simp only [if_neg (by simp : ¬(false = true))]
      cases hos : h.onStart with
      | none =>
        simp only [hos]
        exact Nat.le_trans (Nat.le_succ ns) (ih ⟨hks, ns + 1, sr, st, rh⟩ tr)
      | some f =>
        cases hret : f.ret with
        | some e => simp [hos, hret]
        | none =>
          simp only [hos, hret]
          exact Nat.le_trans (Nat.le_succ ns)
            (ih ⟨hks, ns + 1, sr ++ [⟨h.callerFrame, f.label, f.runtime⟩], st, h⟩
              (tr ++ [f.label]))

theorem startLoop_le : ∀ (ctx : Bool) (hs : List Hook) (l : Lifecycle)
    (tr : List String),
    (startLoop ctx hs l tr).2.1.numStarted ≤ l.numStarted + hs.length := by
  intro ctx hs
  induction hs with
  | nil => intro l tr; simp [startLoop]
  | cons h rest ih =>
    intro l tr
    obtain ⟨hks, ns, sr, st, rh⟩ := l
    rw [startLoop]
    cases ctx with
    | true => simp
    | false =>
      simp only [if_neg (by simp : ¬(false = true))]
      cases hos : h.onStart with
      | none =>
        simp only [hos]
        refine Nat.le_trans (ih _ _) ?_
        simp only [List.length_cons]
        omega
      | some f =>
        cases hret : f.ret with
        | some e => simp [hos, hret]
        | none =>
          simp only [hos, hret]
          refine Nat.le_trans (ih _ _) ?_
          simp only [List.length_cons]
          omega

set_option maxRecDepth 4096 in
theorem stopLoop_spec : ∀ (k : Nat) (l : Lifecycle) (errs : List GoErr)
    (tr : List String),
    l.numStarted = k → k ≤ l.hooks.length →
    stopLoop false l errs tr =
      (combine (errs ++ stopErrs ((l.hooks.take k).reverse)),
       { l with numStarted := 0,
                stopRecords := l.stopRecords ++ stopRecs ((l.hooks.take k).reverse),
                runningHook := lastRunningStop ((l.hooks.take k).reverse) l.runningHook },
       tr ++ stopLabels ((l.hooks.take k).reverse)) := by
  intro k
  induction k with
  | zero =>
    intro l errs tr hns _
    obtain ⟨hks, ns, sr, st, rh⟩ := l
    simp only at hns
    subst hns
    rw [stopLoop]
    simp [stopErrs, stopRecs, stopLabels, lastRunningStop]
  | succ k ih =>
    intro l errs tr hns hle
    obtain ⟨hks, ns, sr, st, rh⟩ := l
    simp only at hns
    subst hns
    simp only at hle
    have hk : k < hks.length := by omega
    have hgot : hks.get? k = some hks[k] := by
      simp [List.getElem?_eq_getElem hk]
    have htake : hks.take (k + 1) = hks.take k ++ [hks[k]] := by
      rw [List.take_succ]
      simp [List.getElem?_eq_getElem hk]
    rw [stopLoop]
    rw [dif_neg (by exact Nat.succ_ne_zero k)]
    rw [if_neg (by simp : ¬(false = true))]
    simp only [Nat.add_sub_cancel, hgot, htake]
    cases hos : hks[k].onStop with
    | none =>
      rw [ih ⟨hks, k, sr, st, rh⟩ errs tr rfl (Nat.le_of_lt hk)]
      simp only [stopErrs, stopRecs, stopLabels, lastRunningStop, hos, htake,
        List.filterMap_append, List.reverse_append, List.reverse_cons,
        List.reverse_nil, List.nil_append, List.singleton_append,
        List.filterMap_cons, List.filterMap_nil, List.append_nil,
        List.append_assoc, Option.isSome_none, Option.map_some, Option.map_none,
        Option.map_some', Option.map_none', Bool.false_eq_true, if_false]
    | some f =>
      cases hret : f.ret with
      | none =>
        simp only [hret, List.append_nil]
        have IH := ih ⟨hks, k, sr,
          st ++ [⟨(hks[k]).callerFrame, f.label, f.runtime⟩], hks[k]⟩
          errs (tr ++ [f.label]) rfl (Nat.le_of_lt hk)
        rw [IH]
        simp only [stopErrs, stopRecs, stopLabels, lastRunningStop, hos, hret, htake,
          List.filterMap_append, List.reverse_append, List.reverse_cons,
          List.reverse_nil, List.nil_append, List.singleton_append,
          List.filterMap_cons, List.filterMap_nil, List.append_nil,
          List.append_assoc, Option.isSome_none, Option.isSome_some,
          Option.map_some, Option.map_none, Option.map_some', Option.map_none',
          Bool.false_eq_true, if_false, if_true]
      | some e =>
        simp only [hret]
        have IH := ih ⟨hks, k, sr,
          st ++ [⟨(hks[k]).callerFrame, f.label, f.runtime⟩], hks[k]⟩
          (errs ++ [GoErr.hookErr e]) (tr ++ [f.label]) rfl (Nat.le_of_lt hk)
        rw [IH]
        simp only [stopErrs, stopRecs, stopLabels, lastRunningStop, hos, hret, htake,
          List.filterMap_append, List.reverse_append, List.reverse_cons,
          List.reverse_nil, List.nil_append, List.singleton_append,
          List.filterMap_cons, List.filterMap_nil, List.append_nil,
          List.append_assoc, Option.isSome_none, Option.isSome_some,
          Option.map_some, Option.map_none, Option.map_some', Option.map_none',
          Bool.false_eq_true, if_false, if_true]

theorem stopErrs_hookErr (hs : List Hook) (e : GoErr) (he : e ∈ stopErrs hs) :
    ∃ m, e = GoErr.hookErr m := by
  rw [stopErrs, List.mem_filterMap] at he
  obtain ⟨h, _, hfa⟩ := he
  cases hos : h.onStop with
  | none => rw [hos] at hfa; simp at hfa
  | some f =>
    rw [hos] at hfa
    simp only at hfa
    cases hret : f.ret with
    | none => rw [hret] at hfa; simp at hfa
    | some m =>
      rw [hret] at hfa
      simp only [Option.map_some'] at hfa
      exact ⟨m, by injection hfa with h2; exact h2.symm⟩

theorem combine_no_panic : ∀ (es : List GoErr),
    (∀ e ∈ es, ∃ m, e = GoErr.hookErr m) →
    ∀ i n, combine es ≠ some (GoErr.panicOutOfRange i n)
  | [], _, i, n => by simp [combine]
  | [e], h, i, n => by
    obtain ⟨m, hm⟩ := h e (by simp)
    subst hm
    simp [combine]
  | e :: e2 :: es, h, i, n => by simp [combine]

theorem Stop_no_panic (l : Lifecycle) (ctx : Bool)
    (hle : l.numStarted ≤ l.hooks.length) (i n : Nat) :
    (l.Stop ctx).1 ≠ some (GoErr.panicOutOfRange i n) := by
  cases ctx with
  | true =>
    rw [Lifecycle.Stop, stopLoop]
    by_cases h0 : l.numStarted = 0
    · rw [dif_pos (by exact h0)]
      simp [combine]
    · rw [dif_neg (by exact h0)]
      simp
  | false =>
    rw [Lifecycle.Stop,
      stopLoop_spec l.numStarted ⟨l.hooks, l.numStarted, l.startRecords, [],
        l.runningHook⟩ [] [] rfl hle]
    simp only [List.nil_append]
    exact combine_no_panic _ (fun e he => stopErrs_hookErr _ e he) i n

theorem Stop_unwinds (l : Lifecycle) (hle : l.numStarted ≤ l.hooks.length) :
    (l.Stop false).2.1.numStarted = 0 := by
  rw [Lifecycle.Stop,
    stopLoop_spec l.numStarted ⟨l.hooks, l.numStarted, l.startRecords, [],
      l.runningHook⟩ [] [] rfl hle]

theorem Stop_oob (l : Lifecycle) (hlen : l.hooks.length ≤ l.numStarted - 1)
    (h0 : l.numStarted ≠ 0) :
    l.Stop false =
      (some (GoErr.panicOutOfRange (l.numStarted - 1) l.hooks.length),
       { l with stopRecords := [] }, []) := by
  rw [Lifecycle.Stop, stopLoop]
  rw [dif_neg (by exact h0)]
  rw [if_neg (by simp : ¬(false = true))]
  have : l.hooks.get? (l.numStarted - 1) = none := List.get?_eq_none.mpr hlen
  rw [show ({ l with stopRecords := ([] : List HookRecord) } : Lifecycle).hooks.get?
        (({ l with stopRecords := ([] : List HookRecord) } : Lifecycle).numStarted - 1) =
      none from this]

/-! ## Broadcaster lemmas -/

theorem sendLoop_spec : ∀ (cs : List Chan) (s : Signal) (u : Nat) (acc : List Chan),
    sendLoop cs s u acc =
      (u + cs.countP (fun c => c.isSome),
       acc ++ cs.map (fun c => match c with | none => some s | some x => some x)) := by
  intro cs s
  induction cs with
  | nil => intro u acc; simp [sendLoop]
  | cons c rest ih =>
    intro u acc
    cases c with
    | none =>
      rw [sendLoop, ih]
      simp [List.countP_cons]
    | some x =>
      rw [sendLoop, ih]
      simp [List.countP_cons]
      omega

/-! ## Dig resolver lemmas -/

namespace Dig

theorem lookup_updateCache_self : ∀ (g : Graph) (i : Id) (v : V) (c : Ctor)
    (d : List Id) (b : Bool) (x : V), lookup g i = some (Node.func c d b x) →
    lookup (updateCache g i v) i = some (Node.func c d true v) := by
  intro g
  induction g with
  | nil => intro i v c d b x h; simp [lookup] at h
  | cons p rest ih =>
    intro i v c d b x h
    obtain ⟨j, n⟩ := p
    by_cases hj : j = i
    · rw [lookup, if_pos hj] at h
      injection h with h
      subst h
      simp only [updateCache, if_pos hj, lookup]
    · rw [lookup, if_neg hj] at h
      simp only [updateCache, if_neg hj, lookup]
      exact ih i v c d b x h

theorem lookup_updateCache_ne : ∀ (g : Graph) (i : Id) (v : V) (j : Id),
    j ≠ i → lookup (updateCache g i v) j = lookup g j := by
  intro g
  induction g with
  | nil => intro i v j hne; simp [lookup, updateCache]
  | cons p rest ih =>
    intro i v j hne
    obtain ⟨a, n⟩ := p
    by_cases ha : a = i
    · simp only [updateCache, if_pos ha, lookup]
      rw [if_neg (fun h : a = j => hne (h ▸ ha)),
        if_neg (fun h : a = j => hne (h ▸ ha))]
    · simp only [updateCache, if_neg ha, lookup]
      by_cases haj : a = j
      · rw [if_pos haj, if_pos haj]
      · rw [if_neg haj, if_neg haj]
        exact ih i v j hne

theorem evolves_refl (g : Graph) : evolves g g := fun _ => Or.inl rfl

theorem evolves_trans {g1 g2 g3 : Graph} (h12 : evolves g1 g2)
    (h23 : evolves g2 g3) : evolves g1 g3 := by
  intro j
  rcases h12 j with h12j | ⟨c, d, x, v, hl1, hl2⟩
  · rcases h23 j with h23j | ⟨c, d, x, v, hl2, hl3⟩
    · exact Or.inl (h23j.trans h12j)
    · exact Or.inr ⟨c, d, x, v, by rw [← h12j]; exact hl2, hl3⟩
  · rcases h23 j with h23j | ⟨c', d', x', v', hl2', hl3'⟩
    · exact Or.inr ⟨c, d, x, v, hl1, by rw [h23j]; exact hl2⟩
    · rw [hl2] at hl2'
      injection hl2' with h2
      cases h2

theorem argsLoop_evolves (resolve : Id → Graph → Except DigErr V × Graph × List Id)
    (hres : ∀ i g, evolves g (resolve i g).2.1) :
    ∀ (ps : List Id) (g : Graph), evolves g (argsLoop resolve ps g).2.1 := by
  intro ps
  induction ps with
  | nil => intro g; exact evolves_refl g
  | cons p rest ih =>
    intro g
    cases hlk : lookup g p with
    | none =>
      rcases har : argsLoop resolve rest g with ⟨r, g1, tr⟩
      have hev := ih g
      rw [har] at hev
      cases r with
      | ok vs => simp only [argsLoop, hlk, har]; exact hev
      | error e => simp only [argsLoop, hlk, har]; exact hev
    | some n =>
      rcases hrv : resolve p g with ⟨r, g1, tr⟩
      have h1 := hres p g
      rw [hrv] at h1
      cases r with
      | error e => simp only [argsLoop, hlk, hrv]; exact h1
      | ok v =>
        rcases har : argsLoop resolve rest g1 with ⟨r2, g2, tr2⟩
        have h2 := ih g1
        rw [har] at h2
        cases r2 with
        | ok vs => simp only [argsLoop, hlk, hrv, har]; exact evolves_trans h1 h2
        | error e => simp only [argsLoop, hlk, hrv, har]; exact evolves_trans h1 h2

theorem value_evolves : ∀ (fuel : Nat) (i : Id) (g : Graph),
    evolves g (value fuel i g).2.1 := by
  intro fuel
  induction fuel with
  | zero => intro i g; exact evolves_refl g
  | succ fuel ih =>
    intro i g
    cases hlk : lookup g i with
    | none => simp only [value, hlk]; exact evolves_refl g
    | some n =>
      cases n with
      | obj v => simp only [value, hlk]; exact evolves_refl g
      | func c d cached cv =>
        cases cached with
        | true => simp only [value, hlk]; exact evolves_refl g
        | false =>
          cases hpc : precheck g with
          | some dep => simp only [value, hlk, hpc]; exact evolves_refl g
          | none =>
            rcases har : argsLoop (value fuel) c.params g with ⟨r, g1, tr⟩
            have hargs := argsLoop_evolves (value fuel) (fun i g => ih i g) c.params g
            rw [har] at hargs
            cases r with
            | error e => simp only [value, hlk, hpc, har]; exact hargs
            | ok args =>
              cases hall : allSome args with
              | none => simp only [value, hlk, hpc, har, hall]; exact hargs
              | some vs =>
                simp only [value, hlk, hpc, har, hall]
                intro j
                by_cases hj : j = i
                · subst hj
                  rcases hargs j with hsame | ⟨c', d', x', v', hl1, hl2⟩
                  · refine Or.inr ⟨c, d, cv, (c.fn vs).1, hlk, ?_⟩
                    exact lookup_updateCache_self g1 j _ c d false cv (hsame.trans hlk)
                  · rw [hl1] at hlk
                    injection hlk with hnode
                    injection hnode with hc hd hb hx
                    subst hc; subst hd
                    refine Or.inr ⟨c', d', x', (c'.fn vs).1, hl1, ?_⟩
                    exact lookup_updateCache_self g1 j _ c' d' true v' hl2
                · rw [lookup_updateCache_ne g1 i _ j hj]
                  exact hargs j

theorem value_cached_eq (fuel : Nat) (i : Id) (g : Graph) (c : Ctor)
    (d : List Id) (cv : V) (h : lookup g i = some (Node.func c d true cv)) :
    value (fuel + 1) i g = (Except.ok cv, g, []) := by
  simp only [value, h]

theorem value_ok_caches : ∀ (fuel : Nat) (i : Id) (g : Graph) (c : Ctor)
    (d : List Id) (x v : V) (g' : Graph) (tr : List Id),
    lookup g i = some (Node.func c d false x) →
    value fuel i g = (Except.ok v, g', tr) →
    lookup g' i = some (Node.func c d true v) ∧ ∃ tr0, tr = tr0 ++ [i] := by
  intro fuel i g c d x v g' tr hlk hval
  cases fuel with
  | zero =>
    simp only [value] at hval
    simp at hval
  | succ fuel =>
    simp only [value, hlk] at hval
    cases hpc : precheck g with
    | some dep =>
      rw [hpc] at hval
      simp at hval
    | none =>
      rw [hpc] at hval
      rcases har : argsLoop (value fuel) c.params g with ⟨r, g1, tra⟩
      simp only [har] at hval
      cases r with
      | error e => simp at hval
      | ok args =>
        cases hall : allSome args with
        | none => simp only [hall] at hval; simp at hval
        | some vs =>
          simp only [hall, Prod.mk.injEq] at hval
          obtain ⟨hv, hg, htr⟩ := hval
          injection hv with hv
          have hev := argsLoop_evolves (value fuel) (fun i g => value_evolves fuel i g)
            c.params g
          rw [har] at hev
          have hshape : ∃ b y, lookup g1 i = some (Node.func c d b y) := by
            rcases hev i with hsame | ⟨c', d', x', v', hl1, hl2⟩
            · exact ⟨false, x, hsame.trans hlk⟩
            · rw [hl1] at hlk
              injection hlk with hnode
              injection hnode with hc hd hb hx
              subst hc; subst hd
              exact ⟨true, v', hl2⟩
          obtain ⟨b, y, hg1⟩ := hshape
          constructor
          · rw [← hg, ← hv]
            exact lookup_updateCache_self g1 i _ c d b y hg1
          · exact ⟨tra, htr.symm⟩

theorem findMissingDep_some : ∀ (g : Graph) (xs : List (Id × Node)) (dep : Id),
    findMissingDep g xs = some dep →
    lookup g dep = none ∧ ∃ p ∈ xs, dep ∈ nodeDeps p.2 := by
  intro g xs
  induction xs with
  | nil => intro dep h; simp [findMissingDep] at h
  | cons p rest ih =>
    intro dep h
    obtain ⟨j, n⟩ := p
    rw [findMissingDep] at h
    cases hf : (nodeDeps n).find? (fun d => (lookup g d).isNone) with
    | some d0 =>
      rw [hf] at h
      injection h with h
      subst h
      have hp := List.find?_some hf
      have hm := List.mem_of_find?_eq_some hf
      refine ⟨Option.isNone_iff_eq_none.mp (by simpa using hp), ⟨(j, n), by simp, hm⟩⟩
    | none =>
      rw [hf] at h
      obtain ⟨h1, q, hq, hd⟩ := ih dep h
      exact ⟨h1, q, List.mem_cons_of_mem _ hq, hd⟩

theorem findMissingDep_none : ∀ (g : Graph) (xs : List (Id × Node)),
    (∀ p ∈ xs, ∀ d ∈ nodeDeps p.2, (lookup g d).isSome = true) →
    findMissingDep g xs = none := by
  intro g xs
  induction xs with
  | nil => intro _; rfl
  | cons p rest ih =>
    intro hall
    obtain ⟨j, n⟩ := p
    rw [findMissingDep]
    have hf : (nodeDeps n).find? (fun d => (lookup g d).isNone) = none := by
      rw [List.find?_eq_none]
      intro d hd
      have := hall (j, n) (by simp) d hd
      simp [Option.isNone_iff_eq_none]
      exact Option.isSome_iff_exists.mp this |>.elim (fun a ha => by simp [ha])
    rw [hf]
    exact ih (fun q hq => hall q (List.mem_cons_of_mem _ hq))

theorem value_precheck_fails (fuel : Nat) (i : Id) (g : Graph) (c : Ctor)
    (d : List Id) (x : V) (dep : Id)
    (hlk : lookup g i = some (Node.func c d false x))
    (hpc : precheck g = some dep) :
    value (fuel + 1) i g = (Except.error (DigErr.notRegistered c.name dep), g, []) := by
  simp only [value, hlk, hpc]

end Dig

theorem lastRunning_all_none : ∀ (hs : List Hook) (d : Hook),
    (∀ x ∈ hs, x.onStart.isSome = false) → lastRunning hs d = d := by
  intro hs
  induction hs with
  | nil => intro d _; rfl
  | cons h rest ih =>
    intro d hall
    rw [lastRunning, if_neg (by simp [hall h (by simp)])]
    exact ih d (fun x hx => hall x (List.mem_cons_of_mem _ hx))

theorem lastRunning_append_last : ∀ (pre : List Hook) (hk : Hook)
    (post : List Hook) (d : Hook), hk.onStart.isSome = true →
    (∀ x ∈ post, x.onStart.isSome = false) →
    lastRunning (pre ++ hk :: post) d = hk := by
  intro pre
  induction pre with
  | nil =>
    intro hk post d hsome hnone
    rw [List.nil_append, lastRunning, if_pos hsome]
    exact lastRunning_all_none post hk hnone
  | cons h pre ih =>
    intro hk post d hsome hnone
    rw [List.cons_append, lastRunning]
    by_cases hh : h.onStart.isSome = true
    · rw [if_pos hh]; exact ih hk post h hsome hnone
    · rw [if_neg hh]; exact ih hk post d hsome hnone

/-! ## Claim theorems -/

/-- C1 (counterexample): for the hook sequence [h1 succeeds, h2 fails,
h3], Start does return h2's error and never invokes h3's start callback,
but the started-count afterwards is 1, not 2: the failing hook's
iteration returns before the increment, so the count is not "number of
hooks processed". -/
theorem C1_counterexample :
    (lA.Start false).1 = some (GoErr.hookErr "h2 failed") ∧
    (lA.Start false).2.2 = ["h1start", "h2start"] ∧
    ¬((lA.Start false).2.1.numStarted = 2) :=
  ⟨rfl, rfl, by decide⟩

/-- C1 (amended): after Start returns because a hook's start callback
failed, the started-count equals the number of hooks processed BEFORE
the failing hook — the failing hook is not counted.  For hooks =
pre ++ [hk] ++ rest with all of pre succeeding and hk's start callback
failing with e, Start returns e, the invocation trace is exactly the
start callbacks of pre followed by hk's (so no hook of rest ever runs),
and the started-count equals pre.length. -/
theorem C1_start_abort (pre : List Hook) (hk : Hook) (rest : List Hook)
    (f : HookFn) (e : String) (l : Lifecycle)
    (hpre : ∀ x ∈ pre, startOk x = true)
    (hos : hk.onStart = some f) (hret : f.ret = some e)
    (hns : l.numStarted = 0) (hhooks : l.hooks = pre ++ hk :: rest) :
    l.Start false =
      (some (GoErr.hookErr e),
       { l with startRecords := startRecs pre,
                numStarted := pre.length,
                runningHook := hk },
       startLabels pre ++ [f.label]) := by
  rw [Lifecycle.Start, hhooks]
  rw [startLoop_fail pre hk rest f e
    ⟨pre ++ hk :: rest, l.numStarted, [], l.stopRecords, l.runningHook⟩ []
    hpre hos hret]
  simp [hns]

/-- C1 (witness): the amended claim at the concrete scenario. -/
theorem C1_start_abort_witness :
    lA.Start false =
      (some (GoErr.hookErr "h2 failed"),
       { lA with startRecords := [⟨⟨"caller1"⟩, "h1start", 1⟩],
                 numStarted := 1,
                 runningHook := hkA2 },
       ["h1start", "h2start"]) :=
  (C1_start_abort [hkA1] hkA2 [hkA3] ⟨"h2start", some "h2 failed", 1⟩
    "h2 failed" lA (by decide) rfl rfl rfl rfl).trans rfl

/-- C2: Stop invokes the stop callbacks of exactly the hooks counted as
started — the first numStarted hooks — in reverse registration order,
skipping hooks whose stop callback is nil: the invocation trace of Stop
is precisely the stop labels of (hooks.take numStarted).reverse. -/
theorem C2_stop_reverse (l : Lifecycle) (k : Nat)
    (hns : l.numStarted = k) (hle : k ≤ l.hooks.length) :
    (l.Stop false).2.2 = stopLabels ((l.hooks.take k).reverse) := by
  rw [Lifecycle.Stop,
    stopLoop_spec k ⟨l.hooks, l.numStarted, l.startRecords, [], l.runningHook⟩
      [] [] hns hle]
  simp

/-- C2 (witness): with h1 and h2 started successfully and h3 failing
during Start, Stop invokes h2's stop callback, then h1's, never h3's. -/
theorem C2_stop_reverse_witness :
    lBStarted.numStarted = 2 ∧
    (lBStarted.Stop false).2.2 = ["h2stop", "h1stop"] :=
  ⟨rfl, (C2_stop_reverse lBStarted 2 rfl (by decide)).trans rfl⟩

/-- C6: with an uncancelled context, Stop records a HookRecord for every
invoked stop and continues past errors: the result is the multierr
combination of exactly the errors of the invoked stop callbacks (nil iff
none failed), the stop records cover every invoked hook, and all started
hooks are processed (numStarted reaches 0). -/
theorem C6_stop_continue (l : Lifecycle) (k : Nat)
    (hns : l.numStarted = k) (hle : k ≤ l.hooks.length) :
    (l.Stop false).1 = combine (stopErrs ((l.hooks.take k).reverse)) ∧
    (l.Stop false).2.1.stopRecords = stopRecs ((l.hooks.take k).reverse) ∧
    (l.Stop false).2.1.numStarted = 0 ∧
    ((l.Stop false).1 = none ↔ stopErrs ((l.hooks.take k).reverse) = []) := by
  have H := stopLoop_spec k
    ⟨l.hooks, l.numStarted, l.startRecords, [], l.runningHook⟩ [] [] hns hle
  rw [Lifecycle.Stop, H]
  simp [combine_eq_none_iff]

/-- C6 (witness): h1's stop callback fails and h2's (started earlier)
succeeds — both execute (two records, in execution order h1 then h2) and
the aggregate error names only h1's failure. -/
theorem C6_stop_continue_witness :
    (lC.Stop false).1 = some (GoErr.hookErr "h1stop failed") ∧
    (lC.Stop false).2.1.stopRecords =
      [⟨⟨"caller1"⟩, "h1stop", 1⟩, ⟨⟨"caller2"⟩, "h2stop", 1⟩] :=
  ⟨((C6_stop_continue lC 2 rfl (by decide)).1).trans rfl,
   ((C6_stop_continue lC 2 rfl (by decide)).2.1).trans rfl⟩

/-- C9: Start never resets the started-count (it only grows); starting
from an unwound state (started-count 0) it ends at most at the number of
hooks, and a completed uncancelled Stop from a consistent state unwinds
the count to 0 and never indexes the hook list out of bounds; but two
consecutive Starts (all start callbacks succeeding) leave the count at
twice the number of hooks, which exceeds it for any nonempty hook list,
and the next Stop's access of the hook list at started-count minus 1 is
out of bounds — the Go slice access panics. -/
theorem C9_started_count_safety :
    (∀ (ctx : Bool) (l : Lifecycle),
      l.numStarted ≤ (l.Start ctx).2.1.numStarted) ∧
    (∀ (ctx : Bool) (l : Lifecycle), l.numStarted = 0 →
      (l.Start ctx).2.1.numStarted ≤ (l.Start ctx).2.1.hooks.length) ∧
    (∀ (ctx : Bool) (l : Lifecycle) (i n : Nat),
      l.numStarted ≤ l.hooks.length →
      (l.Stop ctx).1 ≠ some (GoErr.panicOutOfRange i n)) ∧
    (∀ l : Lifecycle, l.numStarted ≤ l.hooks.length →
      (l.Stop false).2.1.numStarted = 0) ∧
    (∀ l : Lifecycle, l.numStarted = 0 →
      (∀ h ∈ l.hooks, startOk h = true) → 1 ≤ l.hooks.length →
      ((l.Start false).2.1.Start false).2.1.numStarted = 2 * l.hooks.length ∧
      l.hooks.length < ((l.Start false).2.1.Start false).2.1.numStarted ∧
      (((l.Start false).2.1.Start false).2.1.Stop false).1 =
        some (GoErr.panicOutOfRange (2 * l.hooks.length - 1) l.hooks.length)) := by
  refine ⟨?_, ?_, ?_, ?_, ?_⟩
  · intro ctx l
    exact startLoop_mono ctx l.hooks
      ⟨l.hooks, l.numStarted, [], l.stopRecords, l.runningHook⟩ []
  · intro ctx l h0
    have h1 := startLoop_le ctx l.hooks
      ⟨l.hooks, l.numStarted, [], l.stopRecords, l.runningHook⟩ []
    have h2 := startLoop_hooks ctx l.hooks
      ⟨l.hooks, l.numStarted, [], l.stopRecords, l.runningHook⟩ []
    rw [Lifecycle.Start, h2]
    simp only at h1
    rw [h0] at h1 ⊢
    simpa using h1
  · intro ctx l i n hle
    exact Stop_no_panic l ctx hle i n
  · intro l hle
    exact Stop_unwinds l hle
  · intro l h0 hok h1
    have e1 : (l.Start false).2.1 =
        { l with startRecords := startRecs l.hooks,
                 numStarted := l.hooks.length,
                 runningHook := lastRunning l.hooks l.runningHook } := by
      rw [Lifecycle.Start, startLoop_ok l.hooks
        ⟨l.hooks, l.numStarted, [], l.stopRecords, l.runningHook⟩ [] hok]
      simp [h0]
    have e2 : ((l.Start false).2.1.Start false).2.1 =
        { l with startRecords := startRecs l.hooks,
                 numStarted := l.hooks.length + l.hooks.length,
                 runningHook := lastRunning l.hooks
                   (lastRunning l.hooks l.runningHook) } := by
      rw [e1, Lifecycle.Start, startLoop_ok l.hooks
        ⟨l.hooks, l.hooks.length, [], l.stopRecords,
          lastRunning l.hooks l.runningHook⟩ [] hok]
      simp
    refine ⟨by rw [e2, Nat.two_mul], ?_, ?_⟩
    · rw [e2]
      show l.hooks.length < l.hooks.length + l.hooks.length
      omega
    · rw [e2]
      have hoob := Stop_oob
        ⟨l.hooks, l.hooks.length + l.hooks.length, startRecs l.hooks,
          l.stopRecords, lastRunning l.hooks (lastRunning l.hooks l.runningHook)⟩
        (by show l.hooks.length ≤ l.hooks.length + l.hooks.length - 1; omega)
        (by show ¬(l.hooks.length + l.hooks.length = 0); omega)
      rw [hoob]
      show some (GoErr.panicOutOfRange (l.hooks.length + l.hooks.length - 1)
          l.hooks.length) =
        some (GoErr.panicOutOfRange (2 * l.hooks.length - 1) l.hooks.length)
      rw [Nat.two_mul]

/-- C9 (witness): a one-hook lifecycle started twice reaches
started-count 2 > 1, and the following Stop panics indexing index 1 of
the single-element hook list. -/
theorem C9_witness :
    ((lD.Start false).2.1.Start false).2.1.numStarted = 2 ∧
    (((lD.Start false).2.1.Start false).2.1.Stop false).1 =
      some (GoErr.panicOutOfRange 1 1) :=
  ⟨(C9_started_count_safety.2.2.2.2 lD rfl (by decide) (by decide)).1.trans rfl,
   (C9_started_count_safety.2.2.2.2 lD rfl (by decide) (by decide)).2.2.trans rfl⟩

/-- C10: the running-hook reference is set immediately before each
callback and never cleared: on a fresh lifecycle RunningHookCaller is
the empty string; after a fully successful Start it is the last hook of
the list with a non-nil start callback (unchanged if there is none);
after a Start aborted by a failing hook it is that failing hook; and
after an uncancelled Stop it is the last hook processed with a non-nil
stop callback — in every case a hook that is no longer executing. -/
theorem C10_running_hook :
    Lifecycle.New.RunningHookCaller = "" ∧
    (∀ l : Lifecycle, (∀ h ∈ l.hooks, startOk h = true) →
      (l.Start false).2.1.runningHook = lastRunning l.hooks l.runningHook) ∧
    (∀ (pre : List Hook) (hk : Hook) (rest : List Hook) (f : HookFn)
      (e : String) (l : Lifecycle), (∀ x ∈ pre, startOk x = true) →
      hk.onStart = some f → f.ret = some e → l.hooks = pre ++ hk :: rest →
      (l.Start false).2.1.runningHook = hk) ∧
    (∀ (l : Lifecycle) (k : Nat), l.numStarted = k → k ≤ l.hooks.length →
      (l.Stop false).2.1.runningHook =
        lastRunningStop ((l.hooks.take k).reverse) l.runningHook) ∧
    (∀ (pre : List Hook) (hk : Hook) (post : List Hook) (d : Hook),
      hk.onStart.isSome = true → (∀ x ∈ post, x.onStart.isSome = false) →
      lastRunning (pre ++ hk :: post) d = hk) := by
  refine ⟨rfl, ?_, ?_, ?_, ?_⟩
  · intro l hok
    rw [Lifecycle.Start, startLoop_ok l.hooks
      ⟨l.hooks, l.numStarted, [], l.stopRecords, l.runningHook⟩ [] hok]
  · intro pre hk rest f e l hpre hos hret hhooks
    rw [Lifecycle.Start, hhooks, startLoop_fail pre hk rest f e
      ⟨pre ++ hk :: rest, l.numStarted, [], l.stopRecords, l.runningHook⟩ []
      hpre hos hret]
  · intro l k hns hle
    rw [Lifecycle.Stop, stopLoop_spec k
      ⟨l.hooks, l.numStarted, l.startRecords, [], l.runningHook⟩ [] [] hns hle]
  · intro pre hk post d hsome hnone
    exact lastRunning_append_last pre hk post d hsome hnone

/-- C10 (witness): the running-hook behaviour at a concrete lifecycle:
empty on a fresh lifecycle, and still the last invoked hook's caller
after Start has returned. -/
theorem C10_running_hook_witness :
    Lifecycle.New.RunningHookCaller = "" ∧
    (lD.Start false).2.1.RunningHookCaller = "callerD" := by
  refine ⟨C10_running_hook.1, ?_⟩
  rw [Lifecycle.RunningHookCaller, C10_running_hook.2.1 lD (by decide)]
  rfl

/-- C3: singleton semantics of the registry: resolving a cached funcNode
returns the cached value with the graph unchanged and no constructor
invocation; the first successful resolution of an uncached funcNode
stores the produced value with cached = true; and in the concrete
diamond registry (A depends on B and C, both depending on D), resolving
A invokes D's constructor exactly once. -/
theorem C3_singleton :
    (∀ (fuel : Nat) (i : Dig.Id) (g : Dig.Graph) (c : Dig.Ctor)
      (d : List Dig.Id) (cv : Dig.V),
      Dig.lookup g i = some (Dig.Node.func c d true cv) →
      Dig.value (fuel + 1) i g = (Except.ok cv, g, [])) ∧
    (∀ (fuel : Nat) (i : Dig.Id) (g : Dig.Graph) (c : Dig.Ctor)
      (d : List Dig.Id) (x v : Dig.V) (g' : Dig.Graph) (tr : List Dig.Id),
      Dig.lookup g i = some (Dig.Node.func c d false x) →
      Dig.value fuel i g = (Except.ok v, g', tr) →
      Dig.lookup g' i = some (Dig.Node.func c d true v)) ∧
    ((Dig.value 10 0 Dig.gDiamond).2.2 = [3, 1, 2, 0] ∧
     (Dig.value 10 0 Dig.gDiamond).2.2.count 3 = 1 ∧
     (Dig.value 10 0 Dig.gDiamond).1 = Except.ok 44) :=
  ⟨fun fuel i g c d cv h => Dig.value_cached_eq fuel i g c d cv h,
   fun fuel i g c d x v g' tr h1 h2 =>
     (Dig.value_ok_caches fuel i g c d x v g' tr h1 h2).1,
   ⟨rfl, rfl, rfl⟩⟩

/-- C3 (witness): resolving the already-cached node of gC returns the
cached value 99, leaves the graph unchanged and invokes nothing. -/
theorem C3_singleton_witness :
    Dig.value 1 5 Dig.gC = (Except.ok 99, Dig.gC, []) :=
  C3_singleton.1 0 5 Dig.gC (Dig.sumCtor "ctorE" [] 0) [] 99 rfl

/-- C4 (counterexample): a constructor that returns the error "boom"
alongside the value 7: value ignores the error result entirely — it
returns (7, nil), marks the node cached, and a subsequent resolution
returns the cached 7 without re-invoking (empty trace) — contradicting
"propagated as ConstructorError, not cached, retried". -/
theorem C4_counterexample :
    (Dig.value 2 0 Dig.gBad).1 = Except.ok 7 ∧
    (Dig.value 2 0 Dig.gBad).2.2 = [0] ∧
    Dig.lookup (Dig.value 2 0 Dig.gBad).2.1 0 =
      some (Dig.Node.func Dig.ctorBad [] true 7) ∧
    (Dig.value 2 0 (Dig.value 2 0 Dig.gBad).2.1).2.2 = [] :=
  ⟨rfl, rfl, rfl, rfl⟩

/-- C4 (amended): funcNode.value reads only the first result of the
constructor call — Call(args)[0] — so a constructor's error result is
ignored: the resolution succeeds with the first result, the node is
cached with it, and every later resolution returns the cached value
without re-invoking the constructor.  Only dependency-resolution
failures are propagated, and those leave the node uncached. -/
theorem C4_error_dropped (fuel : Nat) (i : Dig.Id) (g : Dig.Graph)
    (c : Dig.Ctor) (d : List Dig.Id) (x : Dig.V) (args : List (Option Dig.V))
    (vs : List Dig.V) (g1 : Dig.Graph) (tr : List Dig.Id)
    (hlk : Dig.lookup g i = some (Dig.Node.func c d false x))
    (hpc : Dig.precheck g = none)
    (har : Dig.argsLoop (Dig.value fuel) c.params g = (Except.ok args, g1, tr))
    (hall : Dig.allSome args = some vs) :
    Dig.value (fuel + 1) i g =
      (Except.ok (c.fn vs).1, Dig.updateCache g1 i (c.fn vs).1, tr ++ [i]) ∧
    Dig.lookup (Dig.updateCache g1 i (c.fn vs).1) i =
      some (Dig.Node.func c d true (c.fn vs).1) ∧
    ∀ fuel', Dig.value (fuel' + 1) i (Dig.updateCache g1 i (c.fn vs).1) =
      (Except.ok (c.fn vs).1, Dig.updateCache g1 i (c.fn vs).1, []) := by
  have h1 : Dig.value (fuel + 1) i g =
      (Except.ok (c.fn vs).1, Dig.updateCache g1 i (c.fn vs).1, tr ++ [i]) := by
    simp only [Dig.value, hlk, hpc, har, hall]
  have h2 := (Dig.value_ok_caches (fuel + 1) i g c d x (c.fn vs).1
    (Dig.updateCache g1 i (c.fn vs).1) (tr ++ [i]) hlk h1).1
  exact ⟨h1, h2, fun fuel' => Dig.value_cached_eq fuel' i _ c d (c.fn vs).1 h2⟩

/-- C4 (witness): the amended behaviour at the concrete failing
constructor. -/
theorem C4_error_dropped_witness :
    Dig.value 2 0 Dig.gBad = (Except.ok 7, Dig.updateCache Dig.gBad 0 7, [0]) :=
  (C4_error_dropped 1 0 Dig.gBad Dig.ctorBad [] 0 [] [] Dig.gBad []
    rfl rfl rfl rfl).1.trans rfl

/-- C5 (counterexample): resolving node 0 (ctorX, which declares no
dependencies at all) fails with "not registered" because the unrelated
node 1 (ctorY) declares a dependency on the unregistered identity 2 —
and the error names ctorX, the constructor being resolved, not ctorY,
the constructor that actually needed identity 2. -/
theorem C5_counterexample :
    Dig.value 2 0 Dig.gU =
      (Except.error (Dig.DigErr.notRegistered "ctorX" 2), Dig.gU, []) := rfl

/-- C5 (amended): before invoking a constructor, value verifies the
declared dependencies of EVERY registered node, not only the resolved
node's: if any registered node declares a dependency with no registered
node, resolution of any uncached funcNode fails with an error naming
that missing identity and the constructor currently being resolved
(which may not be the one that declared it), constructing nothing and
leaving the graph unchanged; the pre-check passes when every declared
dependency of every node is registered. -/
theorem C5_missing_dep (fuel : Nat) (i : Dig.Id) (g : Dig.Graph)
    (c : Dig.Ctor) (d : List Dig.Id) (x : Dig.V)
    (hlk : Dig.lookup g i = some (Dig.Node.func c d false x)) :
    (∀ dep, Dig.precheck g = some dep →
      Dig.value (fuel + 1) i g =
        (Except.error (Dig.DigErr.notRegistered c.name dep), g, []) ∧
      Dig.lookup g dep = none ∧ ∃ p ∈ g, dep ∈ Dig.nodeDeps p.2) ∧
    ((∀ p ∈ g, ∀ dep ∈ Dig.nodeDeps p.2, (Dig.lookup g dep).isSome = true) →
      Dig.precheck g = none) :=
  ⟨fun dep hpc =>
    ⟨Dig.value_precheck_fails fuel i g c d x dep hlk hpc,
     (Dig.findMissingDep_some g g dep hpc).1,
     (Dig.findMissingDep_some g g dep hpc).2⟩,
   fun hall => Dig.findMissingDep_none g g hall⟩

/-- C5 (witness): the amended behaviour at the concrete registry gU. -/
theorem C5_missing_dep_witness :
    Dig.lookup Dig.gU 2 = none ∧
    Dig.value 3 0 Dig.gU =
      (Except.error (Dig.DigErr.notRegistered "ctorX" 2), Dig.gU, []) :=
  ⟨((C5_missing_dep 2 0 Dig.gU Dig.ctorX [] 0 rfl).1 2 rfl).2.1,
   ((C5_missing_dep 2 0 Dig.gU Dig.ctorX [] 0 rfl).1 2 rfl).1⟩

/-- C7: broadcast with an empty subscriber set fails with the
no-subscribers error ("attempted to shutdown without any Done
channels"). -/
theorem C7_broadcast_empty (signal : Signal) :
    App.broadcastSignal [] signal = (some BErr.noSubscribers, []) := rfl

/-- C8: broadcast attempts a non-blocking send to every subscriber
channel: a channel whose slot already holds an undelivered signal keeps
it and is counted as unsent, an empty channel receives the signal, and
no channel is skipped; the call returns the "failed to send ... to
unsent out of total channels" error exactly when at least one slot was
full, and nil otherwise.  Stated for both revisions: the
signalBroadcaster closure unconditionally, and App.broadcastSignal for a
nonempty subscriber set. -/
theorem C8_broadcast_nonblocking :
    (∀ (dones : List Chan) (signal : Signal),
      App.signalBroadcaster dones signal =
        (if dones.countP (fun c => c.isSome) ≠ 0
         then some (BErr.failedToSend signal
           (dones.countP (fun c => c.isSome)) dones.length)
         else none,
         dones.map (fun c => match c with
           | none => some signal
           | some x => some x))) ∧
    (∀ (dones : List Chan) (signal : Signal), dones ≠ [] →
      App.broadcastSignal dones signal =
        (if dones.countP (fun c => c.isSome) ≠ 0
         then some (BErr.failedToSend signal
           (dones.countP (fun c => c.isSome)) dones.length)
         else none,
         dones.map (fun c => match c with
           | none => some signal
           | some x => some x))) := by
  constructor
  · intro dones signal
    rw [App.signalBroadcaster]
    rw [sendLoop_spec]
    simp only [Nat.zero_add, List.nil_append]
    by_cases hc : dones.countP (fun c => c.isSome) ≠ 0
    · rw [if_pos hc, if_pos hc]
    · rw [if_neg hc, if_neg hc]
  · intro dones signal hne
    rw [App.broadcastSignal]
    rw [if_neg (Nat.not_lt.mpr (List.length_pos.mpr hne))]
    rw [sendLoop_spec]
    simp only [Nat.zero_add, List.nil_append]
    by_cases hc : dones.countP (fun c => c.isSome) ≠ 0
    · rw [if_pos hc, if_pos hc]
    · rw [if_neg hc, if_neg hc]

/-- C8 (witness): two subscribers, the first still holding an
undelivered signal: broadcast reports 1 of 2 failed, delivers to the
empty channel, and leaves the full one untouched. -/
theorem C8_broadcast_nonblocking_witness :
    App.broadcastSignal donesFix "SIGTERM" =
      (some (BErr.failedToSend "SIGTERM" 1 2), [some "OLD", some "SIGTERM"]) :=
  (C8_broadcast_nonblocking.2 donesFix "SIGTERM" (by decide)).trans rfl
